import Mathlib

/-!
# Shallow embedding of `shoe_agg.py`

This file embeds the shoe-collection analyzer (`src/shoe_agg.py`) in Lean 4
and settles the specification claims about it.

Modelling conventions:
* Python strings are Lean `String`s; the Python primitives used by the code
  (`str.strip`, `str.capitalize`, `str.split(',')`, `str.startswith('#')`,
  `float(...)`, `int(...)`) are embedded below as executable functions over
  `List Char`.
* Shoe sizes are represented as `Rat`.  Every size the program manipulates is
  produced by parsing a decimal token, and all claims are about exact decimal
  values, so rationals model the Python floats faithfully on the inputs that
  matter.  `parseFloat` accepts the decimal forms of Python `float(...)`
  (optional sign, digits, optional fraction, optional exponent); the exotic
  forms (`inf`, `nan`, underscore separators) are outside the program's
  documented input format and are not modelled.
* Console output (warnings, messages) is modelled as a returned `List String`.
* Reading a file is modelled by an `Option (List String)` argument: `none` is
  a source that cannot be opened (the `FileNotFoundError` / generic exception
  branches), `some lines` is the list of lines returned by `readlines()`
  (a trailing newline on a line is immaterial, every use strips first).
-/

/-- A shoe record, as built by both collectors in `shoe_agg.py`:
dictionary with keys `brand`, `name`, `color`, `usage`, `size`. -/
structure ShoeRecord where
  brand : String
  name : String
  color : String
  usage : String
  size : Rat
deriving Repr, DecidableEq

/-- The whitespace characters stripped by Python `str.strip()` (ASCII part). -/
def isPySpace (c : Char) : Bool :=
  c = ' ' || c = '\t' || c = '\n' || c = '\r' || c = '\x0b' || c = '\x0c'

/-- `str.strip()` on a character list. -/
def pyStripChars (cs : List Char) : List Char :=
  ((cs.dropWhile isPySpace).reverse.dropWhile isPySpace).reverse

/-- Python `str.strip()`. -/
def pyStrip (s : String) : String := ⟨pyStripChars s.data⟩

/-- Python `str.capitalize()`: first character uppercased, the rest
lowercased (ASCII model). -/
def pyCapitalize (s : String) : String :=
  match s.data with
  | [] => ""
  | c :: cs => ⟨c.toUpper :: cs.map Char.toLower⟩

/-- Python `str.split(sep)` for a one-character separator, on character
lists: splits at every occurrence, keeping empty chunks, and the split of the
empty string is one empty chunk. -/
def splitChar (sep : Char) : List Char → List (List Char)
  | [] => [[]]
  | c :: cs =>
    if c = sep then [] :: splitChar sep cs
    else
      match splitChar sep cs with
      | [] => [[c]]
      | g :: gs => (c :: g) :: gs

/-- Python `str.split(',')`. -/
def pySplitComma (s : String) : List String :=
  (splitChar ',' s.data).map fun l => ⟨l⟩

/-- Python `str.startswith('#')`. -/
def startsHash (s : String) : Bool :=
  match s.data with
  | '#' :: _ => true
  | _ => false

/-- Take a maximal run of ASCII digits off the front of a character list. -/
def takeDigits : List Char → List Char × List Char
  | [] => ([], [])
  | c :: cs =>
    if c.isDigit then
      let (d, r) := takeDigits cs
      (c :: d, r)
    else ([], c :: cs)

/-- Numeric value of a digit run. -/
def digitsVal (cs : List Char) : Nat :=
  cs.foldl (fun a c => a * 10 + (c.toNat - 48)) 0

/-- Strip one optional leading sign; returns (isNegative, rest). -/
def parseSign : List Char → Bool × List Char
  | '+' :: cs => (false, cs)
  | '-' :: cs => (true, cs)
  | cs => (false, cs)

/-- Parse a signed digit run that must consume the whole list. -/
def parseSignedDigits (cs : List Char) : Option Int :=
  let (neg, cs1) := parseSign cs
  let (d, r) := takeDigits cs1
  if d.isEmpty || !r.isEmpty then none
  else some (if neg then -(digitsVal d : Int) else (digitsVal d : Int))

/-- Parse the optional exponent tail of a float literal; `[]` means
exponent `0`, otherwise `e`/`E` followed by a signed digit run. -/
def parseExpPart : List Char → Option Int
  | [] => some 0
  | 'e' :: cs => parseSignedDigits cs
  | 'E' :: cs => parseSignedDigits cs
  | _ => none

/-- Python `float(s)` on its decimal forms:
`[sign] digits ['.' digits] [('e'|'E') [sign] digits]`, where at least one
digit must appear in the mantissa.  Returns `none` where Python raises
`ValueError`. -/
def parseFloat (s : String) : Option Rat :=
  let (neg, cs1) := parseSign s.data
  let (ip, r1) := takeDigits cs1
  let (fp, r2) :=
    match r1 with
    | '.' :: rest => takeDigits rest
    | _ => (([] : List Char), r1)
  if ip.isEmpty && fp.isEmpty then none
  else
    match parseExpPart r2 with
    | none => none
    | some e =>
      let mant : Int := digitsVal ip * 10 ^ fp.length + digitsVal fp
      let mant : Int := if neg then -mant else mant
      let k : Int := e - (fp.length : Int)
      some (if 0 ≤ k then mkRat (mant * 10 ^ k.toNat) 1
            else mkRat mant (10 ^ (-k).toNat))

/-- Python `int(s)`: strips whitespace, then an optional sign and a digit
run that must consume everything.  Returns `none` where Python raises
`ValueError`. -/
def parsePyInt (s : String) : Option Int :=
  parseSignedDigits (pyStripChars s.data)

/-- The closed usage enumeration of the program. -/
def validUsages : List String := ["Casual", "Athletic", "Formal"]

/-- The warning printed for an out-of-enum usage token in a file row
(`shoe_agg.py` line 69; quotes in the message elided). -/
def usageWarnMsg (u : String) : String :=
  s!"Warning: Invalid usage {u} found in file. Defaulting to Casual."

/-- The warning printed for an unparsable size token in a file row
(`shoe_agg.py` line 75; quotes in the message elided). -/
def sizeWarnMsg (s : String) : String :=
  s!"Warning: Invalid size {s} found in file. Using 0 as default."

/-- Whether a raw file line is a data line: non-blank and non-comment after
stripping, with at least 5 comma-separated fields (`shoe_agg.py`
lines 59–61). -/
def isDataLine (line : String) : Bool :=
  let t := pyStrip line
  !t.data.isEmpty && !startsHash t && decide (5 ≤ (pySplitComma t).length)

/-- The usage token of a line, as the code computes it:
`parts[3].strip().capitalize()`. -/
def usageTok (line : String) : String :=
  pyCapitalize (pyStrip ((pySplitComma (pyStrip line)).getD 3 ""))

/-- The size token of a line, as the code computes it: `parts[4].strip()`. -/
def sizeTok (line : String) : String :=
  pyStrip ((pySplitComma (pyStrip line)).getD 4 "")

/-- Processing of one non-header line of the input file
(`shoe_agg.py` lines 58–84): returns the record appended for that line, if
any, together with the warnings printed for it. -/
def lineRecord (line : String) : Option ShoeRecord × List String :=
  let t := pyStrip line
  if !t.data.isEmpty && !startsHash t then
    let parts := pySplitComma t
    if 5 ≤ parts.length then
      let brand := pyCapitalize (pyStrip (parts.getD 0 ""))
      let name := pyCapitalize (pyStrip (parts.getD 1 ""))
      let color := pyCapitalize (pyStrip (parts.getD 2 ""))
      let usage0 := pyCapitalize (pyStrip (parts.getD 3 ""))
      let (usage, w1) :=
        if validUsages.contains usage0 then (usage0, ([] : List String))
        else ("Casual", [usageWarnMsg usage0])
      let sizeStr := pyStrip (parts.getD 4 "")
      let (size, w2) :=
        match parseFloat sizeStr with
        | some v => (v, ([] : List String))
        | none => ((0 : Rat), [sizeWarnMsg sizeStr])
      (some { brand := brand, name := name, color := color,
              usage := usage, size := size }, w1 ++ w2)
    else (none, [])
  else (none, [])

/-- `read_shoe_data_from_file` (`shoe_agg.py` lines 49–97).  The argument is
`none` when the source cannot be opened or read (the exception branches),
`some lines` when `readlines()` yields `lines`.  Returns the result
(`none` models returning Python `None`) and the console output. -/
def read_shoe_data_from_file (file : Option (List String)) :
    Option (List ShoeRecord) × List String :=
  match file with
  | none => (none, ["File not found."])
  | some lines =>
    let results := (lines.drop 1).map lineRecord
    let shoes := results.filterMap Prod.fst
    let msgs := (results.map Prod.snd).flatten
    if shoes.isEmpty then (none, msgs ++ ["No valid data found in the file."])
    else (some shoes, msgs)

/-! ## Interactive collector

`get_shoe_data` (`shoe_agg.py` lines 9–47) is modelled as a function of the
stdin script: the list of strings the successive `input(...)` calls return.
Reaching the end of the script models `EOFError` (which the function does not
catch); this is returned as `none`.  On success the records and the unread
remainder of the script are returned. -/

/-- The usage re-prompt loop of `get_shoe_data` (`shoe_agg.py` lines 21–26):
keeps consuming inputs until one case-normalizes into the usage enum. -/
def readUsage : List String → Option (String × List String)
  | [] => none
  | s :: rest =>
    let u := pyCapitalize (pyStrip s)
    if validUsages.contains u then some (u, rest) else readUsage rest

/-- The per-shoe prompt loop of `get_shoe_data` (`shoe_agg.py` lines 16–41):
collects `n` records, each from a brand, name, color, usage (with re-prompt
loop) and size prompt; an unparsable size yields `0`. -/
def collectShoes : Nat → List String → Option (List ShoeRecord × List String)
  | 0, inp => some ([], inp)
  | n + 1, inp =>
    match inp with
    | brand :: nm :: color :: rest =>
      match readUsage rest with
      | none => none
      | some (usage, rest2) =>
        match rest2 with
        | [] => none
        | sizeStr :: rest3 =>
          let size := (parseFloat (pyStrip sizeStr)).getD 0
          match collectShoes n rest3 with
          | none => none
          | some (shoes, rem) =>
            some ({ brand := pyCapitalize (pyStrip brand),
                    name := pyCapitalize (pyStrip nm),
                    color := pyCapitalize (pyStrip color),
                    usage := usage, size := size } :: shoes, rem)
    | _ => none

/-- `get_shoe_data` (`shoe_agg.py` lines 9–47): reads the shoe count; a
non-integer answer prints a message and recursively restarts the whole
prompt (`shoe_agg.py` lines 45–47).  A negative count behaves like `0`
(`range(1, n+1)` is empty). -/
def get_shoe_data : List String → Option (List ShoeRecord × List String)
  | [] => none
  | c :: rest =>
    match parsePyInt c with
    | some n => collectShoes n.toNat rest
    | none => get_shoe_data rest

example : pyCapitalize "air max" = "Air max" := by decide
example :
    get_shoe_data ["abc", "1", "nike", "air max", "red", "sport",
                   "athletic", "10.5"] =
    some ([{ brand := "Nike", name := "Air max", color := "Red",
             usage := "Athletic", size := mkRat 21 2 }], []) := by decide
example : get_shoe_data ["abc"] = none := by decide

/-! ## CSV export and size rendering

`main` saves the records with `df.to_csv(filename, index=False)`: a
`brand,name,color,usage,size` header and one row per record, fields quoted
minimally (a field is quoted only when it contains the delimiter, a quote,
or a line break, with quotes doubled), and the float size printed by its
`repr`.  Within the rational model every size is an exact decimal, so the
`repr` is the exact decimal expansion, with `.0` appended to integers. -/

/-- Least `k` with `10^k` divisible by `den`, when one exists below `den + 1`
(it always does for denominators of parsed decimals). -/
def decExp (den : Nat) : Option Nat :=
  (List.range (den + 1)).find? fun k => 10 ^ k % den = 0

/-- Python `repr`/`str` of a float, on the exact decimals of the rational
model: sign, integer digits, a decimal point and the exact fractional
digits, with integers rendered with a trailing `.0` as Python does.  The
`"0"` fallback is never reached by a size the program built, since parsed
sizes have denominators dividing a power of ten. -/
def showSize (q : Rat) : String :=
  match decExp q.den with
  | none => "0"
  | some k =>
    let m := q.num.natAbs * 10 ^ k / q.den
    let ds := Nat.toDigits 10 m
    let ds := List.replicate (k + 1 - ds.length) '0' ++ ds
    let intPart : List Char := ds.take (ds.length - k)
    let fracPart : List Char := if k = 0 then ['0'] else ds.drop (ds.length - k)
    let sign : List Char := if q.num < 0 then ['-'] else []
    ⟨sign ++ intPart ++ '.' :: fracPart⟩

/-- Whether `to_csv` quotes a field (minimal quoting). -/
def needsQuote (f : String) : Bool :=
  f.data.any fun c => c = ',' || c = '"' || c = '\n' || c = '\r'

/-- One CSV field as written by `to_csv`. -/
def csvEscape (f : String) : String :=
  if needsQuote f then
    "\"" ++ ⟨(f.data.map fun c => if c = '"' then ['"', '"'] else [c]).flatten⟩ ++ "\""
  else f

/-- Comma-join of the fields of one CSV row. -/
def joinComma : List String → String
  | [] => ""
  | [s] => s
  | s :: rest => s ++ "," ++ joinComma rest

/-- The textual fields of one CSV row of a record, before quoting. -/
def rowFields (r : ShoeRecord) : List String :=
  [r.brand, r.name, r.color, r.usage, showSize r.size]

/-- `df.to_csv(..., index=False)` (`shoe_agg.py` line 422): the lines of the
CSV file written for the records. -/
def to_csv (recs : List ShoeRecord) : List String :=
  "brand,name,color,usage,size" :: recs.map fun r => joinComma ((rowFields r).map csvEscape)

/-- The file collector with its normalization/validation step removed: the
same line selection (drop the header, keep non-blank non-comment lines with
at least 5 comma-separated fields) and the same split, returning the first
five raw fields of each data row. -/
def readRawRows (lines : List String) : List (List String) :=
  ((lines.drop 1).filter fun l => isDataLine l).map
    fun l => (pySplitComma (pyStrip l)).take 5

example : showSize (mkRat 21 2) = "10.5" := by decide
example : showSize (11 : Rat) = "11.0" := by decide
example : showSize (0 : Rat) = "0.0" := by decide
example : showSize (-5 : Rat) = "-5.0" := by decide
example : showSize (mkRat 1 20) = "0.05" := by decide
example :
    to_csv [{ brand := "Nike", name := "Air max", color := "Black",
              usage := "Athletic", size := mkRat 21 2 }] =
    ["brand,name,color,usage,size", "Nike,Air max,Black,Athletic,10.5"] := by decide
example :
    readRawRows ["brand,name,color,usage,size", "Nike,Air max,Black,Athletic,10.5"] =
    [["Nike", "Air max", "Black", "Athletic", "10.5"]] := by decide

/-! ## Aggregation: the brand-by-usage cross tabulation

`analyze_shoes` builds `pd.crosstab(df['brand'], df['usage'])` and keeps the
rows of the 8 brands with the largest row sums (`shoe_agg.py`
lines 236–238).  `pd.crosstab` groups ascending, so its row index is the
lexicographically sorted list of distinct brands; the row sum of a brand is
its record count.  `sort_values(ascending=False)` is modelled as a stable
descending sort over that index: pandas argsorts the reversed values and
reverses the result, so ties keep index order whenever the underlying
`numpy` argsort is stable.  That holds exactly on the insertion-sort path
numpy takes for arrays of at most 16 elements; for larger indexes the
default `kind='quicksort'` argsort gives no tie-order guarantee at all, so
the model's tie order is faithful only for collections with at most 16
distinct brands, and the tie-order theorem below carries that bound as a
hypothesis. -/

/-- Code-point lexicographic comparison of character lists (Python string
`<=` restricted to what sorting needs). -/
def lexLe : List Char → List Char → Bool
  | [], _ => true
  | _ :: _, [] => false
  | a :: as, b :: bs =>
    if a.toNat < b.toNat then true
    else if b.toNat < a.toNat then false
    else lexLe as bs

/-- Python `<=` on strings. -/
def strLe (s t : String) : Bool := lexLe s.data t.data

/-- Insert into an ascending lexicographically sorted list. -/
def insertAsc (s : String) : List String → List String
  | [] => [s]
  | t :: ts => if strLe s t then s :: t :: ts else t :: insertAsc s ts

/-- Ascending lexicographic insertion sort. -/
def sortStrings (l : List String) : List String := l.foldr insertAsc []

/-- Distinct elements in order of first occurrence (worker, carrying the
set of elements already emitted). -/
def dedupKeepFirstAux (seen : List String) : List String → List String
  | [] => []
  | x :: xs =>
    if seen.contains x then dedupKeepFirstAux seen xs
    else x :: dedupKeepFirstAux (x :: seen) xs

/-- Distinct elements in order of first occurrence. -/
def dedupKeepFirst (l : List String) : List String := dedupKeepFirstAux [] l

/-- Stable insertion into a list sorted descending by `key`: the new element
goes before the first element whose key is not larger, so existing order
among equal keys is preserved. -/
def insertDesc (key : String → Nat) (b : String) : List String → List String
  | [] => [b]
  | c :: cs => if key c ≤ key b then b :: c :: cs else c :: insertDesc key b cs

/-- Stable descending sort by `key` (insertion sort).  This matches
`sort_values(ascending=False)` exactly when the index being sorted has at
most 16 elements (numpy's stable insertion-sort path, the only regime in
which the program's tie order is defined); any theorem about tie order must
restrict itself to that regime. -/
def sortDesc (key : String → Nat) (l : List String) : List String :=
  l.foldr (insertDesc key) []

/-- The row index of `pd.crosstab(df['brand'], df['usage'])`: distinct
brands, sorted lexicographically. -/
def brandsIndex (recs : List ShoeRecord) : List String :=
  sortStrings (dedupKeepFirst (recs.map fun r => r.brand))

/-- The column index of the crosstab: distinct usages, sorted. -/
def usagesIndex (recs : List ShoeRecord) : List String :=
  sortStrings (dedupKeepFirst (recs.map fun r => r.usage))

/-- Total number of records of a brand — the crosstab row sum
`brand_usage.sum(axis=1)` of that brand. -/
def brandTotal (recs : List ShoeRecord) (b : String) : Nat :=
  recs.countP fun r => r.brand == b

/-- The brand rows kept for the stacked chart (`shoe_agg.py` line 238):
the crosstab index sorted by row sum descending, truncated by `head(8)`.
Via `sortDesc`, the order among equal row sums reflects the program only
for indexes of at most 16 distinct brands. -/
def top8Brands (recs : List ShoeRecord) : List String :=
  (sortDesc (brandTotal recs) (brandsIndex recs)).take 8

/-- The brand-by-usage cross tabulation restricted to the top-8 brands:
for each kept brand, its count of records per usage column. -/
def brand_usage_rows (recs : List ShoeRecord) : List (String × List Nat) :=
  (top8Brands recs).map fun b =>
    (b, (usagesIndex recs).map fun u =>
      recs.countP fun r => r.brand == b && r.usage == u)

/-- The top-8 brand rows as the spec describes them: brands ranked by
descending total count, ties broken by original encounter order in the
input sequence.  (Stated from the spec, for comparison with
`top8Brands`.) -/
def specTop8Brands (recs : List ShoeRecord) : List String :=
  (sortDesc (brandTotal recs) (dedupKeepFirst (recs.map fun r => r.brand))).take 8

example :
    top8Brands [{ brand := "B", name := "N", color := "C", usage := "Casual", size := 9 },
                { brand := "A", name := "N", color := "C", usage := "Casual", size := 9 }] =
    ["A", "B"] := by decide
example :
    specTop8Brands [{ brand := "B", name := "N", color := "C", usage := "Casual", size := 9 },
                    { brand := "A", name := "N", color := "C", usage := "Casual", size := 9 }] =
    ["B", "A"] := by decide

/-! ## Rendering and the empty-data path -/

/-- The parts of the chart figure that the claims concern: the shoe total
shown in the subtitle and the brand-by-usage stacked-chart data. -/
structure ChartsFig where
  total : Nat
  brand_usage : List (String × List Nat)
deriving Repr, DecidableEq

/-- The inventory-table figure: its cell text, one row per record, the size
cell printed with `str(row['size'])`. -/
def table_rows (recs : List ShoeRecord) : List (List String) :=
  recs.map fun r => [r.brand, r.name, r.color, r.usage, showSize r.size]

/-- `analyze_shoes` (`shoe_agg.py` lines 121–345): on an empty frame it
prints a message and returns `None` (modelled `none`) without building any
figure; otherwise it builds and returns the two figures.  The second
component is the console output. -/
def analyze_shoes (recs : List ShoeRecord) :
    Option (ChartsFig × List (List String)) × List String :=
  if recs.isEmpty then (none, ["No shoe data available for analysis."])
  else (some ({ total := recs.length, brand_usage := brand_usage_rows recs },
              table_rows recs), [])

/-- The statement `charts_fig, table_fig = analyze_shoes(df, ...)` of `main`
(`shoe_agg.py` line 413): unpacking the `None` returned for an empty frame
raises `TypeError`, modelled as `Except.error`; otherwise the two figures
are bound.  The second component is the console output of the call. -/
def main_unpack_figures (recs : List ShoeRecord) :
    Except String (ChartsFig × List (List String)) × List String :=
  match analyze_shoes recs with
  | (none, out) => (Except.error "TypeError: cannot unpack non-iterable NoneType object", out)
  | (some figs, out) => (Except.ok figs, out)

example :
    main_unpack_figures [] =
    (Except.error "TypeError: cannot unpack non-iterable NoneType object",
     ["No shoe data available for analysis."]) := rfl

/-! ## Spec-side descriptions and structural lemmas -/

/-- The record that the spec describes for one data row: the three text
fields stripped and capitalized, the usage token case-normalized and
replaced by `Casual` when outside the enum, the size token parsed as a real
number with `0` on failure.  (Stated from the spec, for comparison with
`lineRecord`.) -/
def specRecordOfLine (line : String) : ShoeRecord :=
  let parts := pySplitComma (pyStrip line)
  { brand := pyCapitalize (pyStrip (parts.getD 0 ""))
    name := pyCapitalize (pyStrip (parts.getD 1 ""))
    color := pyCapitalize (pyStrip (parts.getD 2 ""))
    usage := if validUsages.contains (usageTok line) then usageTok line else "Casual"
    size := (parseFloat (sizeTok line)).getD 0 }

/-- The warnings a data row produces: one for an out-of-enum usage token and
one for an unparsable size token. -/
def lineWarnings (line : String) : List String :=
  (if validUsages.contains (usageTok line) then [] else [usageWarnMsg (usageTok line)]) ++
  (if (parseFloat (sizeTok line)).isSome then [] else [sizeWarnMsg (sizeTok line)])

/-- A non-header line contributes a record exactly when it is a data line,
and then it contributes the record and warnings described by the spec. -/
theorem lineRecord_eq (line : String) :
    lineRecord line =
      (if isDataLine line then some (specRecordOfLine line) else none,
       if isDataLine line then lineWarnings line else []) := by
  unfold lineRecord isDataLine specRecordOfLine lineWarnings usageTok sizeTok
  cases h1 : (pyStrip line).data.isEmpty <;>
    cases h2 : startsHash (pyStrip line) <;>
      by_cases h3 : 5 ≤ (pySplitComma (pyStrip line)).length <;>
        by_cases h4 :
          pyCapitalize (pyStrip ((pySplitComma (pyStrip line))[3]?.getD "")) ∈ validUsages <;>
          cases h5 : parseFloat (pyStrip ((pySplitComma (pyStrip line))[4]?.getD "")) <;>
            simp [h1, h2, h3, h4, h5]
example : parseFloat "10.5" = some (mkRat 21 2) := by decide
example : parseFloat "-5" = some (-5 : Rat) := by decide
example : parseFloat "abc" = none := by decide
example : parseFloat "1e2" = some (100 : Rat) := by decide
example : parseFloat ".5" = some (mkRat 1 2) := by decide
example : parseFloat "" = none := by decide
example : parseFloat "1.2.3" = none := by decide
example : parsePyInt " 12 " = some 12 := by decide
example : parsePyInt "abc" = none := by decide
example : pySplitComma "a,b,," = ["a", "b", "", ""] := by decide
example : pySplitComma "" = [""] := by decide
example :
    read_shoe_data_from_file
      (some ["Brand,Name,Color,Usage,Size", "# note", "",
             "nike,air max,black,athletic,10.5"]) =
    (some [{ brand := "Nike", name := "Air max", color := "Black",
             usage := "Athletic", size := mkRat 21 2 }], []) := by decide

/-- The records collected from the non-header lines are exactly the records
of the data lines, in order. -/
theorem filterMap_lineRecord (ls : List String) :
    (ls.map lineRecord).filterMap Prod.fst =
      (ls.filter fun l => isDataLine l).map specRecordOfLine := by
  induction ls with
  | nil => rfl
  | cons x xs ih =>
    cases h : isDataLine x <;>
      simp [List.filter_cons, lineRecord_eq x, h, ih]

/-- The warnings printed while scanning the non-header lines are exactly the
warnings of the data lines, in order. -/
theorem warnings_lineRecord (ls : List String) :
    ((ls.map lineRecord).map Prod.snd).flatten =
      ((ls.filter fun l => isDataLine l).map lineWarnings).flatten := by
  induction ls with
  | nil => rfl
  | cons x xs ih =>
    simp only [List.map_map] at ih ⊢
    cases h : isDataLine x <;>
      simp [List.filter_cons, lineRecord_eq x, h, ih]

/-- Closed form of the file collector on a readable source. -/
theorem read_file_eq (lines : List String) :
    read_shoe_data_from_file (some lines) =
      (if ((lines.drop 1).filter fun l => isDataLine l) = [] then
         (none, (((lines.drop 1).filter fun l => isDataLine l).map lineWarnings).flatten ++
                ["No valid data found in the file."])
       else
         (some (((lines.drop 1).filter fun l => isDataLine l).map specRecordOfLine),
          (((lines.drop 1).filter fun l => isDataLine l).map lineWarnings).flatten)) := by
  simp only [read_shoe_data_from_file]
  rw [filterMap_lineRecord, warnings_lineRecord]
  cases h : (lines.drop 1).filter fun l => isDataLine l <;> simp [h]

/-- The usage field of a collected record is always in the enum. -/
theorem specRecord_usage_valid (line : String) :
    (specRecordOfLine line).usage ∈ validUsages := by
  unfold specRecordOfLine
  cases h : validUsages.contains (usageTok line)
  · simp [h, validUsages]
  · simp only [h, if_pos]
    exact List.mem_of_elem_eq_true h

/-! ## Claim theorems -/

/-- **C1** (code bug, evaluated at the failing input): with records collected
but empty, `analyze_shoes` prints the user-facing message and builds no
figure, yet `main`'s unpacking of its `None` result raises a `TypeError`
that nothing catches — an unhandled fault, contradicting the claim. -/
theorem c1_empty_dataset_crashes_main :
    analyze_shoes [] = (none, ["No shoe data available for analysis."]) ∧
    main_unpack_figures [] =
      (Except.error "TypeError: cannot unpack non-iterable NoneType object",
       ["No shoe data available for analysis."]) :=
  ⟨rfl, rfl⟩

/-- **C3.** A readable input whose data rows (non-blank, non-comment lines
after the header with at least 5 fields) number `N > 0` makes the collector
return exactly those `N` rows' records, in input order, each normalized as
the spec describes, with a usage from the closed enum. -/
theorem c3_collector_returns_all_data_rows (lines : List String)
    (h : ((lines.drop 1).filter fun l => isDataLine l) ≠ []) :
    ∃ shoes msgs,
      read_shoe_data_from_file (some lines) = (some shoes, msgs) ∧
      shoes = ((lines.drop 1).filter fun l => isDataLine l).map specRecordOfLine ∧
      shoes.length = ((lines.drop 1).filter fun l => isDataLine l).length ∧
      ∀ r ∈ shoes, r.usage ∈ validUsages := by
  refine ⟨((lines.drop 1).filter fun l => isDataLine l).map specRecordOfLine,
    (((lines.drop 1).filter fun l => isDataLine l).map lineWarnings).flatten,
    ?_, rfl, by simp, ?_⟩
  · rw [read_file_eq, if_neg h]
  · intro r hr
    obtain ⟨l, hl, rfl⟩ := List.mem_map.mp hr
    exact specRecord_usage_valid l

/-- Witness for C3 at a concrete two-line file. -/
theorem c3_collector_returns_all_data_rows_witness :
    ∃ shoes msgs,
      read_shoe_data_from_file (some ["Brand,Name,Color,Usage,Size",
        "nike,air max,black,athletic,10.5"]) = (some shoes, msgs) ∧
      shoes = (((["Brand,Name,Color,Usage,Size",
        "nike,air max,black,athletic,10.5"] : List String).drop 1).filter
          fun l => isDataLine l).map specRecordOfLine ∧
      shoes.length = (((["Brand,Name,Color,Usage,Size",
        "nike,air max,black,athletic,10.5"] : List String).drop 1).filter
          fun l => isDataLine l).length ∧
      ∀ r ∈ shoes, r.usage ∈ validUsages :=
  c3_collector_returns_all_data_rows _ (by decide)

/-- **C4.** On any data row, an out-of-enum usage token yields usage
`Casual` with a warning and an unparsable size token yields size `0` with a
warning; in both cases the row still yields a record (no abort). -/
theorem c4_bad_tokens_defaulted_with_warning (line : String)
    (h : isDataLine line = true) :
    ∃ rec w, lineRecord line = (some rec, w) ∧
      (usageTok line ∉ validUsages →
        rec.usage = "Casual" ∧ usageWarnMsg (usageTok line) ∈ w) ∧
      (parseFloat (sizeTok line) = none →
        rec.size = 0 ∧ sizeWarnMsg (sizeTok line) ∈ w) := by
  refine ⟨specRecordOfLine line, lineWarnings line, ?_, ?_, ?_⟩
  · rw [lineRecord_eq]
    simp [h]
  · intro hu
    exact ⟨by simp [specRecordOfLine, hu], by simp [lineWarnings, hu]⟩
  · intro hs
    exact ⟨by simp [specRecordOfLine, hs], by simp [lineWarnings, hs]⟩

/-- Witness for C4 at a row with a bad usage and a bad size token. -/
theorem c4_bad_tokens_defaulted_with_warning_witness :
    ∃ rec w, lineRecord "a,b,c,sport,xyz" = (some rec, w) ∧
      (usageTok "a,b,c,sport,xyz" ∉ validUsages →
        rec.usage = "Casual" ∧ usageWarnMsg (usageTok "a,b,c,sport,xyz") ∈ w) ∧
      (parseFloat (sizeTok "a,b,c,sport,xyz") = none →
        rec.size = 0 ∧ sizeWarnMsg (sizeTok "a,b,c,sport,xyz") ∈ w) :=
  c4_bad_tokens_defaulted_with_warning _ (by decide)

/-- **C5.** The collector returns `None` exactly when the source cannot be
opened or yields no valid data row, and a successful return is a non-empty
record list. -/
theorem c5_none_iff_unopenable_or_no_data :
    (∀ file, (read_shoe_data_from_file file).1 = none ↔
       file = none ∨ ∃ lines, file = some lines ∧
         ((lines.drop 1).filter fun l => isDataLine l) = []) ∧
    (∀ lines shoes msgs,
       read_shoe_data_from_file (some lines) = (some shoes, msgs) →
       shoes ≠ []) := by
  constructor
  · intro file
    cases file with
    | none => simp [read_shoe_data_from_file]
    | some lines =>
      rw [read_file_eq]
      by_cases h : ((lines.drop 1).filter fun l => isDataLine l) = []
      · rw [if_pos h]
        exact ⟨fun _ => Or.inr ⟨lines, rfl, h⟩, fun _ => rfl⟩
      · rw [if_neg h]
        constructor
        · intro hcon
          simp at hcon
        · rintro (h1 | ⟨lines2, he, h2⟩)
          · exact Option.noConfusion h1
          · injection he with he2
            subst he2
            exact absurd h2 h
  · intro lines shoes msgs heq hnil
    subst hnil
    rw [read_file_eq] at heq
    by_cases h : ((lines.drop 1).filter fun l => isDataLine l) = []
    · rw [if_pos h] at heq
      simp at heq
    · rw [if_neg h] at heq
      rcases hfl : (lines.drop 1).filter fun l => isDataLine l with - | ⟨x, xs⟩
      · exact h hfl
      · rw [hfl] at heq
        simp at heq

/-- Witness for C5: the `iff` at an openable one-line file, and a successful
read being non-empty at a concrete file. -/
theorem c5_none_iff_unopenable_or_no_data_witness :
    ((read_shoe_data_from_file (some ["x"])).1 = none ↔
       (some ["x"] : Option (List String)) = none ∨
       ∃ lines, (some ["x"] : Option (List String)) = some lines ∧
         ((lines.drop 1).filter fun l => isDataLine l) = []) ∧
    ([{ brand := "A", name := "B", color := "C", usage := "Casual",
        size := 5 }] : List ShoeRecord) ≠ [] :=
  ⟨c5_none_iff_unopenable_or_no_data.1 (some ["x"]),
   c5_none_iff_unopenable_or_no_data.2 ["Brand,Name,Color,Usage,Size", "a,b,c,casual,5"]
     _ [] (by decide)⟩

/-- **C8.** A non-integer answer to the count prompt makes `get_shoe_data`
re-prompt on the remaining input instead of crashing, and a valid integer
answer proceeds into the collection loop. -/
theorem c8_count_prompt_retries_on_noninteger :
    (∀ s rest, parsePyInt s = none →
       get_shoe_data (s :: rest) = get_shoe_data rest) ∧
    (∀ s n rest, parsePyInt s = some n →
       get_shoe_data (s :: rest) = collectShoes n.toNat rest) := by
  constructor
  · intro s rest h
    simp [get_shoe_data, h]
  · intro s n rest h
    simp [get_shoe_data, h]

/-- Witness for C8: the `"abc"` answer re-prompts, then `"1"` proceeds. -/
theorem c8_count_prompt_retries_on_noninteger_witness :
    get_shoe_data ("abc" :: ["1", "nike", "air max", "red", "athletic", "10.5"]) =
      get_shoe_data ["1", "nike", "air max", "red", "athletic", "10.5"] ∧
    get_shoe_data ("1" :: ["nike", "air max", "red", "athletic", "10.5"]) =
      collectShoes (1 : Int).toNat ["nike", "air max", "red", "athletic", "10.5"] :=
  ⟨c8_count_prompt_retries_on_noninteger.1 "abc" _ (by decide),
   c8_count_prompt_retries_on_noninteger.2 "1" 1 _ (by decide)⟩

/-- **C9.** The concrete scenario: header, comment, blank and one data line
yield exactly the one normalized record with size `10.5`. -/
theorem c9_scenario_single_record :
    read_shoe_data_from_file
      (some ["Brand,Name,Color,Usage,Size", "# note", "",
             "nike,air max,black,athletic,10.5"]) =
    (some [{ brand := "Nike", name := "Air max", color := "Black",
             usage := "Athletic", size := mkRat 21 2 }], []) := by
  decide

/-- **C10.** A non-blank, non-comment line with fewer than 5 fields yields
no record and no warning, and a file whose non-header lines are all
non-data lines is reported as having no valid data. -/
theorem c10_short_lines_contribute_nothing :
    (∀ line, (pyStrip line).data ≠ [] → startsHash (pyStrip line) = false →
       (pySplitComma (pyStrip line)).length < 5 →
       lineRecord line = (none, [])) ∧
    (∀ lines, ((lines.drop 1).filter fun l => isDataLine l) = [] →
       read_shoe_data_from_file (some lines) =
         (none, ["No valid data found in the file."])) := by
  constructor
  · intro line h1 h2 h3
    have hd : isDataLine line = false := by
      unfold isDataLine
      simp [Nat.not_le.mpr h3]
    rw [lineRecord_eq]
    simp [hd]
  · intro lines h
    rw [read_file_eq, if_pos h, h]
    simp

/-- Witness for C10: a 2-field line, and a file with only short, comment and
blank non-header lines. -/
theorem c10_short_lines_contribute_nothing_witness :
    lineRecord "a,b" = (none, []) ∧
    read_shoe_data_from_file (some ["header", "a,b", "# c", ""]) =
      (none, ["No valid data found in the file."]) :=
  ⟨c10_short_lines_contribute_nothing.1 "a,b" (by decide) (by decide) (by decide),
   c10_short_lines_contribute_nothing.2 ["header", "a,b", "# c", ""] (by decide)⟩

/-- `readUsage` returns an unread suffix of its input. -/
theorem readUsage_suffix :
    ∀ inp u rest2, readUsage inp = some (u, rest2) → rest2 <:+ inp := by
  intro inp
  induction inp with
  | nil => intro u rest2 h; exact absurd h (by simp [readUsage])
  | cons s rest ih =>
    intro u rest2 h
    rw [readUsage] at h
    by_cases hc : validUsages.contains (pyCapitalize (pyStrip s))
    · rw [if_pos hc] at h
      injection h with h2
      injection h2 with h3 h4
      subst h4
      exact List.suffix_cons s rest
    · rw [if_neg hc] at h
      exact (ih u rest2 h).trans (List.suffix_cons s rest)

/-- **C7** counterexample: a parsable negative size token yields a record
whose size is negative, refuting the non-negativity part of the claim. -/
theorem c7_counterexample_negative_size :
    (read_shoe_data_from_file
      (some ["Brand,Name,Color,Usage,Size", "a,b,c,casual,-5"])).1 =
      some [{ brand := "A", name := "B", color := "C", usage := "Casual",
              size := -5 }] ∧
    ¬ (0 : Rat) ≤ -5 := by
  refine ⟨by decide, by norm_num⟩

/-- **C7** amended: every record produced by either collector has size equal
to the parsed value of its size token, in particular `0` whenever the token
fails to parse; non-negativity is not enforced. -/
theorem c7_amended_size_is_parsed_or_zero :
    (∀ line, isDataLine line = true →
       ∃ rec w, lineRecord line = (some rec, w) ∧
         rec.size = (parseFloat (sizeTok line)).getD 0 ∧
         (parseFloat (sizeTok line) = none → rec.size = 0)) ∧
    (∀ n inp shoes rem, collectShoes n inp = some (shoes, rem) →
       ∀ r ∈ shoes, ∃ t ∈ inp, r.size = (parseFloat (pyStrip t)).getD 0) := by
  constructor
  · intro line h
    refine ⟨specRecordOfLine line, lineWarnings line, ?_, rfl, ?_⟩
    · rw [lineRecord_eq]
      simp [h]
    · intro hs
      simp [specRecordOfLine, hs]
  · intro n
    induction n with
    | zero =>
      intro inp shoes rem heq r hr
      rw [collectShoes] at heq
      injection heq with h2
      injection h2 with h3 h4
      subst h3
      exact absurd hr (List.not_mem_nil r)
    | succ n ih =>
      intro inp shoes rem heq r hr
      match inp with
      | [] => simp [collectShoes] at heq
      | [b] => simp [collectShoes] at heq
      | [b, nm] => simp [collectShoes] at heq
      | b :: nm :: color :: rest =>
        cases hru : readUsage rest with
        | none => simp [collectShoes, hru] at heq
        | some p =>
          obtain ⟨usage, rest2⟩ := p
          cases rest2 with
          | nil => simp [collectShoes, hru] at heq
          | cons sizeStr rest3 =>
            cases hc : collectShoes n rest3 with
            | none => simp [collectShoes, hru, hc] at heq
            | some q =>
              obtain ⟨shoes2, rem2⟩ := q
              simp only [collectShoes, hru, hc, Option.some.injEq,
                Prod.mk.injEq] at heq
              obtain ⟨heq1, -⟩ := heq
              subst heq1
              have hsuffix : (sizeStr :: rest3) <:+ rest :=
                readUsage_suffix rest usage (sizeStr :: rest3) hru
              rcases List.mem_cons.mp hr with hhd | htl
              · refine ⟨sizeStr, ?_, by rw [hhd]⟩
                have : sizeStr ∈ rest := hsuffix.subset (List.mem_cons_self sizeStr rest3)
                simp [this]
              · obtain ⟨t, ht, hts⟩ := ih rest3 shoes2 rem2 hc r htl
                refine ⟨t, ?_, hts⟩
                have : t ∈ rest := hsuffix.subset (List.mem_cons_of_mem sizeStr ht)
                simp [this]

/-- Witness for the amended C7: a file row with an unparsable size token,
and a one-record interactive session. -/
theorem c7_amended_size_is_parsed_or_zero_witness :
    (∃ rec w, lineRecord "a,b,c,casual,xyz" = (some rec, w) ∧
       rec.size = (parseFloat (sizeTok "a,b,c,casual,xyz")).getD 0 ∧
       (parseFloat (sizeTok "a,b,c,casual,xyz") = none → rec.size = 0)) ∧
    (∀ r ∈ ([{ brand := "Nike", name := "Air", color := "Red",
               usage := "Athletic", size := mkRat 21 2 }] : List ShoeRecord),
       ∃ t ∈ ["nike", "air", "red", "athletic", "10.5"],
         r.size = (parseFloat (pyStrip t)).getD 0) :=
  ⟨c7_amended_size_is_parsed_or_zero.1 "a,b,c,casual,xyz" (by decide),
   c7_amended_size_is_parsed_or_zero.2 1 ["nike", "air", "red", "athletic", "10.5"]
     [{ brand := "Nike", name := "Air", color := "Red",
        usage := "Athletic", size := mkRat 21 2 }] [] (by decide)⟩

/-- Rebuilding a string from its character list is the identity. -/
theorem stringMkData (s : String) : (⟨s.data⟩ : String) = s := by
  cases s
  rfl

/-- A separator-free character list is one whole chunk. -/
theorem splitChar_nosep (sep : Char) :
    ∀ cs : List Char, (∀ c ∈ cs, ¬ c = sep) → splitChar sep cs = [cs] := by
  intro cs
  induction cs with
  | nil => intro _; rfl
  | cons c cs ih =>
    intro h
    rw [splitChar, if_neg (h c (List.mem_cons_self c cs))]
    rw [ih fun d hd => h d (List.mem_cons_of_mem c hd)]

/-- Splitting after a separator-free prefix peels that prefix off. -/
theorem splitChar_append (sep : Char) :
    ∀ cs rest : List Char, (∀ c ∈ cs, ¬ c = sep) →
      splitChar sep (cs ++ sep :: rest) = cs :: splitChar sep rest := by
  intro cs
  induction cs with
  | nil =>
    intro rest _
    simp only [List.nil_append]
    rw [splitChar, if_pos rfl]
  | cons c cs ih =>
    intro rest h
    simp only [List.cons_append]
    rw [splitChar, if_neg (h c (List.mem_cons_self c cs)),
      ih rest fun d hd => h d (List.mem_cons_of_mem c hd)]

/-- Splitting the comma-join of comma-free fields recovers the fields. -/
theorem pySplitComma_joinComma :
    ∀ fields : List String, fields ≠ [] →
      (∀ f ∈ fields, ∀ c ∈ f.data, ¬ c = ',') →
      pySplitComma (joinComma fields) = fields := by
  intro fields
  induction fields with
  | nil => intro h _; exact absurd rfl h
  | cons f fs ih =>
    intro _ hc
    cases fs with
    | nil =>
      show pySplitComma f = [f]
      unfold pySplitComma
      rw [splitChar_nosep ',' f.data (hc f (List.mem_cons_self f []))]
      simp [stringMkData]
    | cons f2 fs2 =>
      show pySplitComma (f ++ "," ++ joinComma (f2 :: fs2)) = f :: f2 :: fs2
      unfold pySplitComma
      have hdata : (f ++ "," ++ joinComma (f2 :: fs2)).data =
          f.data ++ ',' :: (joinComma (f2 :: fs2)).data := by
        rw [String.data_append, String.data_append]
        simp
      rw [hdata,
        splitChar_append ',' f.data _ (hc f (List.mem_cons_self f (f2 :: fs2)))]
      have ih2 := ih (by simp) fun g hg => hc g (List.mem_cons_of_mem f hg)
      unfold pySplitComma at ih2
      simp only [List.map_cons, stringMkData, ih2]

/-- Mapping a function that fixes every element of a list is the identity. -/
theorem listMapIdOn {α : Type} (f : α → α) :
    ∀ l : List α, (∀ a ∈ l, f a = a) → l.map f = l := by
  intro l
  induction l with
  | nil => intro _; rfl
  | cons x xs ih =>
    intro h
    simp only [List.map_cons, h x (List.mem_cons_self x xs),
      ih fun a ha => h a (List.mem_cons_of_mem x ha)]

/-- Minimal quoting leaves a clean field untouched. -/
theorem csvEscape_clean (f : String) (h : needsQuote f = false) :
    csvEscape f = f := by
  simp [csvEscape, h]

/-- A clean field contains no comma. -/
theorem noComma_of_clean (f : String) (h : needsQuote f = false) :
    ∀ c ∈ f.data, ¬ c = ',' := by
  intro c hc he
  subst he
  have : f.data.any (fun c => c = ',' || c = '"' || c = '\n' || c = '\r') = true :=
    List.any_eq_true.mpr ⟨',', hc, by decide⟩
  rw [needsQuote] at h
  rw [this] at h
  exact Bool.noConfusion h

/-- **C6** counterexample: a record whose brand begins with `#` is written
to CSV but skipped as a comment on re-read, so the round trip loses it. -/
theorem c6_counterexample_hash_brand :
    readRawRows (to_csv [{ brand := "#a", name := "B", color := "C",
                           usage := "Casual", size := 1 }]) = [] ∧
    ([{ brand := "#a", name := "B", color := "C",
        usage := "Casual", size := 1 }] : List ShoeRecord).map rowFields ≠ [] := by
  exact ⟨by decide, by decide⟩

/-- **C6** amended: for records whose rendered fields are free of commas,
quotes and line breaks, and whose CSV row neither starts with `#` nor
carries surrounding whitespace, writing to CSV and re-reading with the
collector's row scan (validation/normalization skipped) returns exactly the
written rows in order. -/
theorem c6_amended_roundtrip (recs : List ShoeRecord)
    (hclean : ∀ r ∈ recs, ∀ f ∈ rowFields r, needsQuote f = false)
    (hstrip : ∀ r ∈ recs, pyStrip (joinComma (rowFields r)) = joinComma (rowFields r))
    (hhash : ∀ r ∈ recs, startsHash (joinComma (rowFields r)) = false) :
    readRawRows (to_csv recs) = recs.map rowFields := by
  have hline : ∀ r ∈ recs,
      joinComma ((rowFields r).map csvEscape) = joinComma (rowFields r) := by
    intro r hr
    have : (rowFields r).map csvEscape = rowFields r :=
      listMapIdOn csvEscape (rowFields r) fun f hf => csvEscape_clean f (hclean r hr f hf)
    rw [this]
  have hsplit : ∀ r ∈ recs,
      pySplitComma (pyStrip (joinComma ((rowFields r).map csvEscape))) = rowFields r := by
    intro r hr
    rw [hline r hr, hstrip r hr]
    exact pySplitComma_joinComma (rowFields r) (by simp [rowFields])
      fun f hf => noComma_of_clean f (hclean r hr f hf)
  have hdata : ∀ r ∈ recs,
      isDataLine (joinComma ((rowFields r).map csvEscape)) = true := by
    intro r hr
    unfold isDataLine
    have h5 : (pySplitComma (pyStrip (joinComma ((rowFields r).map csvEscape)))).length = 5 := by
      rw [hsplit r hr]
      simp [rowFields]
    have hne : (pyStrip (joinComma ((rowFields r).map csvEscape))).data.isEmpty = false := by
      cases hE : (pyStrip (joinComma ((rowFields r).map csvEscape))).data with
      | nil =>
        exfalso
        unfold pySplitComma at h5
        rw [hE] at h5
        simp [splitChar] at h5
      | cons c cs => simp
    have hh : startsHash (pyStrip (joinComma ((rowFields r).map csvEscape))) = false := by
      rw [hline r hr, hstrip r hr]
      exact hhash r hr
    simp [hne, hh, h5]
  unfold readRawRows to_csv
  rw [List.drop_one, List.tail_cons]
  rw [List.filter_eq_self.mpr ?hall]
  case hall =>
    intro l hl
    obtain ⟨r, hr, rfl⟩ := List.mem_map.mp hl
    exact hdata r hr
  rw [List.map_map]
  refine List.map_congr_left fun r hr => ?_
  simp only [Function.comp_apply]
  rw [hsplit r hr]
  simp [rowFields]

/-- Witness for the amended C6 at a concrete clean record list. -/
theorem c6_amended_roundtrip_witness :
    readRawRows (to_csv [{ brand := "Nike", name := "Air max", color := "Black",
                           usage := "Athletic", size := mkRat 21 2 }]) =
      ([{ brand := "Nike", name := "Air max", color := "Black",
          usage := "Athletic", size := mkRat 21 2 }] : List ShoeRecord).map rowFields :=
  c6_amended_roundtrip _ (by decide) (by decide) (by decide)

/-! ## Ordering lemmas for the crosstab row selection -/

/-- `lexLe` is reflexive. -/
theorem lexLe_refl : ∀ cs : List Char, lexLe cs cs = true := by
  intro cs
  induction cs with
  | nil => rfl
  | cons c cs ih =>
    rw [lexLe]
    simp [Nat.lt_irrefl, ih]

/-- `lexLe` is total. -/
theorem lexLe_total : ∀ as bs : List Char,
    lexLe as bs = true ∨ lexLe bs as = true := by
  intro as
  induction as with
  | nil => intro bs; exact Or.inl rfl
  | cons a as ih =>
    intro bs
    cases bs with
    | nil => exact Or.inr rfl
    | cons b bs =>
      rw [lexLe, lexLe]
      rcases Nat.lt_trichotomy a.toNat b.toNat with h | h | h
      · left
        rw [if_pos h]
      · rcases ih bs with h2 | h2
        · left
          rw [if_neg (fun hlt => Nat.lt_irrefl _ (h ▸ hlt)),
            if_neg (fun hlt => Nat.lt_irrefl _ (h ▸ hlt))]
          exact h2
        · right
          rw [if_neg (fun hlt => Nat.lt_irrefl _ (h ▸ hlt)),
            if_neg (fun hlt => Nat.lt_irrefl _ (h ▸ hlt))]
          exact h2
      · right
        rw [if_pos h]

/-- `lexLe` is transitive. -/
theorem lexLe_trans : ∀ as bs cs : List Char,
    lexLe as bs = true → lexLe bs cs = true → lexLe as cs = true := by
  intro as
  induction as with
  | nil => intro bs cs _ _; rfl
  | cons a as ih =>
    intro bs cs h1 h2
    cases bs with
    | nil => exact absurd h1 (by rw [lexLe]; simp)
    | cons b bs =>
      cases cs with
      | nil => exact absurd h2 (by rw [lexLe]; simp)
      | cons c cs2 =>
        rw [lexLe] at h1 h2 ⊢
        rcases Nat.lt_trichotomy a.toNat b.toNat with hab | hab | hab <;>
          rcases Nat.lt_trichotomy b.toNat c.toNat with hbc | hbc | hbc
        · rw [if_pos (Nat.lt_trans hab hbc)]
        · rw [if_pos (hbc ▸ hab)]
        · rw [if_neg (Nat.lt_asymm hbc), if_pos hbc] at h2
          exact Bool.noConfusion h2
        · rw [if_pos (hab.symm ▸ hbc)]
        · have hac : a.toNat = c.toNat := hab.trans hbc
          rw [if_neg (fun hlt => Nat.lt_irrefl _ (hac ▸ hlt)),
            if_neg (fun hlt => Nat.lt_irrefl _ (hac ▸ hlt))]
          rw [if_neg (fun hlt => Nat.lt_irrefl _ (hab ▸ hlt)),
            if_neg (fun hlt => Nat.lt_irrefl _ (hab ▸ hlt))] at h1
          rw [if_neg (fun hlt => Nat.lt_irrefl _ (hbc ▸ hlt)),
            if_neg (fun hlt => Nat.lt_irrefl _ (hbc ▸ hlt))] at h2
          exact ih bs cs2 h1 h2
        · rw [if_neg (Nat.lt_asymm hbc), if_pos hbc] at h2
          exact Bool.noConfusion h2
        · rw [if_neg (Nat.lt_asymm hab), if_pos hab] at h1
          exact Bool.noConfusion h1
        · rw [if_neg (Nat.lt_asymm hab), if_pos hab] at h1
          exact Bool.noConfusion h1
        · rw [if_neg (Nat.lt_asymm hab), if_pos hab] at h1
          exact Bool.noConfusion h1

/-- `strLe` is total. -/
theorem strLe_total (s t : String) : strLe s t = true ∨ strLe t s = true :=
  lexLe_total s.data t.data

/-- `strLe` is transitive. -/
theorem strLe_trans (s t u : String) :
    strLe s t = true → strLe t u = true → strLe s u = true :=
  lexLe_trans s.data t.data u.data

/-- Ascending insertion permutes. -/
theorem insertAsc_perm (x : String) :
    ∀ l : List String, List.Perm (insertAsc x l) (x :: l) := by
  intro l
  induction l with
  | nil => exact List.Perm.refl _
  | cons t ts ih =>
    rw [insertAsc]
    by_cases h : strLe x t = true
    · rw [if_pos h]
    · rw [if_neg h]
      exact (List.Perm.cons t ih).trans (List.Perm.swap x t ts)

/-- Ascending insertion sort permutes. -/
theorem sortStrings_perm : ∀ l : List String, List.Perm (sortStrings l) l := by
  intro l
  induction l with
  | nil => exact List.Perm.refl _
  | cons x xs ih =>
    exact (insertAsc_perm x (sortStrings xs)).trans (List.Perm.cons x ih)

/-- Ascending insertion preserves lexicographic sortedness. -/
theorem insertAsc_sorted (x : String) :
    ∀ l : List String, l.Pairwise (fun a b => strLe a b = true) →
      (insertAsc x l).Pairwise (fun a b => strLe a b = true) := by
  intro l
  induction l with
  | nil => intro _; simp [insertAsc]
  | cons t ts ih =>
    intro hp
    rcases List.pairwise_cons.mp hp with ⟨ht, hts⟩
    rw [insertAsc]
    by_cases h : strLe x t = true
    · rw [if_pos h]
      refine List.pairwise_cons.mpr ⟨?_, hp⟩
      intro y hy
      rcases List.mem_cons.mp hy with rfl | hy2
      · exact h
      · exact strLe_trans x t y h (ht y hy2)
    · rw [if_neg h]
      refine List.pairwise_cons.mpr ⟨?_, ih hts⟩
      intro y hy
      have hy2 : y ∈ x :: ts := (insertAsc_perm x ts).mem_iff.mp hy
      rcases List.mem_cons.mp hy2 with heq | hy3
      · rw [heq]
        rcases strLe_total x t with h1 | h1
        · exact absurd h1 h
        · exact h1
      · exact ht y hy3

/-- The sorted brand index is lexicographically sorted. -/
theorem sortStrings_sorted : ∀ l : List String,
    (sortStrings l).Pairwise (fun a b => strLe a b = true) := by
  intro l
  induction l with
  | nil => exact List.Pairwise.nil
  | cons x xs ih => exact insertAsc_sorted x (sortStrings xs) ih

/-- Stable descending insertion permutes. -/
theorem insertDesc_perm (key : String → Nat) (x : String) :
    ∀ l : List String, List.Perm (insertDesc key x l) (x :: l) := by
  intro l
  induction l with
  | nil => exact List.Perm.refl _
  | cons c cs ih =>
    rw [insertDesc]
    by_cases h : key c ≤ key x
    · rw [if_pos h]
    · rw [if_neg h]
      exact (List.Perm.cons c ih).trans (List.Perm.swap x c cs)

/-- The stable descending sort permutes. -/
theorem sortDesc_perm (key : String → Nat) :
    ∀ l : List String, List.Perm (sortDesc key l) l := by
  intro l
  induction l with
  | nil => exact List.Perm.refl _
  | cons x xs ih =>
    exact (insertDesc_perm key x (sortDesc key xs)).trans (List.Perm.cons x ih)

/-- Inserting a lexicographically minimal element into a list sorted by
descending key (ties in lexicographic order) keeps it sorted. -/
theorem insertDesc_pairwise (key : String → Nat) (x : String) :
    ∀ l : List String,
      l.Pairwise (fun a b => key b < key a ∨ (key a = key b ∧ strLe a b = true)) →
      (∀ c ∈ l, strLe x c = true) →
      (insertDesc key x l).Pairwise
        (fun a b => key b < key a ∨ (key a = key b ∧ strLe a b = true)) := by
  intro l
  induction l with
  | nil => intro _ _; simp [insertDesc]
  | cons c cs ih =>
    intro hp hx
    rcases List.pairwise_cons.mp hp with ⟨hc, hcs⟩
    rw [insertDesc]
    by_cases h : key c ≤ key x
    · rw [if_pos h]
      refine List.pairwise_cons.mpr ⟨?_, hp⟩
      intro y hy
      rcases List.mem_cons.mp hy with rfl | hy2
      · rcases Nat.lt_or_eq_of_le h with h2 | h2
        · exact Or.inl h2
        · exact Or.inr ⟨h2.symm, hx y (List.mem_cons_self y cs)⟩
      · have hyle : key y ≤ key c := by
          rcases hc y hy2 with h3 | ⟨h3, _⟩
          · exact Nat.le_of_lt h3
          · exact Nat.le_of_eq h3.symm
        rcases Nat.lt_or_eq_of_le (Nat.le_trans hyle h) with h4 | h4
        · exact Or.inl h4
        · exact Or.inr ⟨h4.symm, hx y (List.mem_cons_of_mem c hy2)⟩
    · rw [if_neg h]
      have hxc : key x < key c := Nat.lt_of_not_le h
      refine List.pairwise_cons.mpr
        ⟨?_, ih hcs fun d hd => hx d (List.mem_cons_of_mem c hd)⟩
      intro y hy
      have hy2 : y ∈ x :: cs := (insertDesc_perm key x cs).mem_iff.mp hy
      rcases List.mem_cons.mp hy2 with rfl | hy3
      · exact Or.inl hxc
      · exact hc y hy3

/-- Sorting a lexicographically sorted list by descending key yields rows in
descending key order with ties kept in lexicographic order. -/
theorem sortDesc_pairwise (key : String → Nat) :
    ∀ base : List String, base.Pairwise (fun a b => strLe a b = true) →
      (sortDesc key base).Pairwise
        (fun a b => key b < key a ∨ (key a = key b ∧ strLe a b = true)) := by
  intro base
  induction base with
  | nil => intro _; exact List.Pairwise.nil
  | cons x xs ih =>
    intro hp
    rcases List.pairwise_cons.mp hp with ⟨hx, hxs⟩
    exact insertDesc_pairwise key x (sortDesc key xs) (ih hxs)
      fun c hc => hx c ((sortDesc_perm key xs).mem_iff.mp hc)

/-- The brands of the cross-tabulation rows are the top-8 selection. -/
theorem brand_usage_rows_fst (recs : List ShoeRecord) :
    (brand_usage_rows recs).map Prod.fst = top8Brands recs := by
  unfold brand_usage_rows
  rw [List.map_map]
  exact listMapIdOn _ (top8Brands recs) fun b _ => rfl

